import Mathlib

/-!
Shallow embedding of the fraud-detection core of the FraudDetect_Pro
repository: the business-rule scoring overlay and feature-vector builder
from `backend/app/chatbot_nlp.py`, and the model registry from
`backend/app/ml_models.py`.  Python floats are modelled as rationals;
`np.log` is passed in as an explicit function parameter, and the opaque
scikit-learn classifier/scaler objects become explicit functions inside a
`Bundle` structure.  Python `None`-vs-string arguments become
`Option String`, with Python truthiness (`if merchant:`) made explicit.
-/

namespace FraudDetect

/-- `startsWithChars n h` is true when the character list `n` is an
initial segment of `h` (one anchor position of Python's `in` substring
search). -/
def startsWithChars : List Char → List Char → Bool
  | [], _ => true
  | _ :: _, [] => false
  | a :: as, b :: bs => a == b && startsWithChars as bs

/-- `hasSubChars n h` is true when `n` occurs contiguously inside `h`
(models Python's `needle in haystack` on strings). -/
def hasSubChars (needle : List Char) : List Char → Bool
  | [] => startsWithChars needle []
  | b :: bs => startsWithChars needle (b :: bs) || hasSubChars needle bs

/-- Python `s.lower()`, on the character list of `s`. -/
def strLower (s : String) : List Char :=
  s.toList.map Char.toLower

/-- Python `needle in haystack` for a string needle and a (lowered)
character-list haystack. -/
def containsSub (needle : String) (hay : List Char) : Bool :=
  hasSubChars needle.toList hay

/-- Python truthiness of `merchant and needle in merchant.lower()`:
`None` and the empty string are falsy. -/
def merchantHas (merchant : Option String) (needle : String) : Bool :=
  match merchant with
  | none => false
  | some s => !s.toList.isEmpty && containsSub needle (strLower s)

/-- Python truthiness of a `str | None` value (`if merchant:`). -/
def merchantTruthy (merchant : Option String) : Bool :=
  match merchant with
  | none => false
  | some s => !s.toList.isEmpty

/-- The six sequential `score = max(score, floor)` rule updates of
`_apply_fraud_business_rules` (chatbot_nlp.py lines 705-733), before the
final cap.  Starting score is the argument `score`. -/
def scoreChain (amount : ℚ) (merchant : Option String) (score : ℚ) : ℚ :=
  -- Rule 1: high amounts at coffee shops
  let score := if merchantHas merchant "starbucks" ∧ 500 < amount then max score 0.08 else score
  -- Rule 2: very high amounts at any merchant
  let score := if 10000 < amount then max score 0.06 else score
  -- Rule 3: micro transactions
  let score := if amount < 0.1 then max score 0.07 else score
  -- Rule 4: unknown or suspicious merchants
  let score := if merchantHas merchant "unknown" ∨ merchantHas merchant "suspicious" then max score 0.12 else score
  -- Rule 5: high ride sharing costs
  let score := if merchantHas merchant "uber" ∧ 300 < amount then max score 0.04 else score
  -- Rule 6: unusual grocery amounts
  let score := if merchantHas merchant "whole foods" ∧ (amount < 5 ∨ 500 < amount) then max score 0.03 else score
  score

/-- `_apply_fraud_business_rules(amount, merchant, base_score)`
(chatbot_nlp.py lines 705-734): the six max-rules followed by
`return min(score, 1.0)`. -/
def applyRules (amount : ℚ) (merchant : Option String) (base_score : ℚ) : ℚ :=
  min (scoreChain amount merchant base_score) 1

set_option maxHeartbeats 2000000 in
theorem scoreChain_shift (amount : ℚ) (merchant : Option String) (s : ℚ)
    (h : 0 ≤ s) :
    scoreChain amount merchant s = max s (scoreChain amount merchant 0) := by
  unfold scoreChain
  split_ifs <;>
    simp [max_assoc, max_eq_left h,
      show max (0 : ℚ) 0.08 = 0.08 from by norm_num,
      show max (0 : ℚ) 0.06 = 0.06 from by norm_num,
      show max (0 : ℚ) 0.07 = 0.07 from by norm_num,
      show max (0 : ℚ) 0.12 = 0.12 from by norm_num,
      show max (0 : ℚ) 0.04 = 0.04 from by norm_num,
      show max (0 : ℚ) 0.03 = 0.03 from by norm_num]

theorem scoreChain_zero_nonneg (amount : ℚ) (merchant : Option String) :
    0 ≤ scoreChain amount merchant 0 := by
  unfold scoreChain
  split_ifs <;> norm_num [le_max_iff]

theorem scoreChain_zero_le (amount : ℚ) (merchant : Option String) :
    scoreChain amount merchant 0 ≤ 0.12 := by
  unfold scoreChain
  split_ifs <;> norm_num [max_le_iff]

theorem applyRules_eq (amount : ℚ) (merchant : Option String) (s : ℚ)
    (h0 : 0 ≤ s) (h1 : s ≤ 1) :
    applyRules amount merchant s = max s (scoreChain amount merchant 0) := by
  unfold applyRules
  rw [scoreChain_shift amount merchant s h0]
  exact min_eq_left (max_le h1 (le_trans (scoreChain_zero_le amount merchant) (by norm_num)))

/-- C1: for every amount, merchant (present or absent) and base score in
[0,1], `_apply_fraud_business_rules` returns a value between the base
score and 1.0, and applying it a second time to its own output with the
same amount and merchant returns the same value (idempotence of the
max-with-floors accumulation). -/
theorem applyRules_bounds_idempotent (amount : ℚ) (merchant : Option String)
    (base_score : ℚ) (h0 : 0 ≤ base_score) (h1 : base_score ≤ 1) :
    base_score ≤ applyRules amount merchant base_score ∧
    applyRules amount merchant base_score ≤ 1 ∧
    applyRules amount merchant (applyRules amount merchant base_score) =
      applyRules amount merchant base_score := by
  have hK0 := scoreChain_zero_nonneg amount merchant
  have hK1 : scoreChain amount merchant 0 ≤ 1 :=
    le_trans (scoreChain_zero_le amount merchant) (by norm_num)
  have hr : applyRules amount merchant base_score =
      max base_score (scoreChain amount merchant 0) :=
    applyRules_eq amount merchant base_score h0 h1
  refine ⟨?_, ?_, ?_⟩
  · rw [hr]; exact le_max_left _ _
  · rw [hr]; exact max_le h1 hK1
  · rw [hr]
    have h0' : 0 ≤ max base_score (scoreChain amount merchant 0) :=
      le_trans h0 (le_max_left _ _)
    have h1' : max base_score (scoreChain amount merchant 0) ≤ 1 := max_le h1 hK1
    rw [applyRules_eq amount merchant _ h0' h1', max_assoc, max_self]

/-- C1 witness: instantiation of `applyRules_bounds_idempotent` at the
concrete input amount 600, merchant "Starbucks", base score 0.01. -/
theorem applyRules_bounds_idempotent_witness :
    (0 : ℚ) ≤ 0.01 ∧ (0.01 : ℚ) ≤ 1 ∧
    ((0.01 : ℚ) ≤ applyRules 600 (some "Starbucks") 0.01 ∧
     applyRules 600 (some "Starbucks") 0.01 ≤ 1 ∧
     applyRules 600 (some "Starbucks") (applyRules 600 (some "Starbucks") 0.01) =
       applyRules 600 (some "Starbucks") 0.01) :=
  ⟨by norm_num, by norm_num,
   applyRules_bounds_idempotent 600 (some "Starbucks") 0.01 (by norm_num) (by norm_num)⟩

/-- C2: `applyRules(600, "Starbucks", 0.01)` is at least 0.08 (the
coffee-brand high-amount rule fires), and `applyRules(15000, "Amazon",
0.01)` is exactly 0.06 (only the amount > 10000 rule fires). -/
theorem applyRules_examples :
    0.08 ≤ applyRules 600 (some "Starbucks") 0.01 ∧
    applyRules 15000 (some "Amazon") 0.01 = 0.06 := by
  constructor
  · unfold applyRules scoreChain
    norm_num [show merchantHas (some "Starbucks") "starbucks" = true from by decide,
      show merchantHas (some "Starbucks") "unknown" = false from by decide,
      show merchantHas (some "Starbucks") "suspicious" = false from by decide,
      show merchantHas (some "Starbucks") "uber" = false from by decide,
      show merchantHas (some "Starbucks") "whole foods" = false from by decide,
      max_def, min_def]
  · unfold applyRules scoreChain
    norm_num [show merchantHas (some "Amazon") "starbucks" = false from by decide,
      show merchantHas (some "Amazon") "unknown" = false from by decide,
      show merchantHas (some "Amazon") "suspicious" = false from by decide,
      show merchantHas (some "Amazon") "uber" = false from by decide,
      show merchantHas (some "Amazon") "whole foods" = false from by decide,
      max_def, min_def]

/-! ### Feature-vector builder (`build_transaction_vector`, chatbot_nlp.py lines 199-240) -/

/-- Python dict assignment `d[k] = v` on an insertion-ordered mapping:
replace the value if the key is present, otherwise append the pair. -/
def dictSet (d : List (String × ℚ)) (k : String) (v : ℚ) : List (String × ℚ) :=
  if d.any (fun p => p.1 == k) then
    d.map (fun p => if p.1 = k then (k, v) else p)
  else d ++ [(k, v)]

/-- The dict key `f"V{i}"`. -/
def vKey (i : ℕ) : String := "V" ++ toString i

/-- Value assigned to `transaction[f"V{i}"]` by the loop of
`build_transaction_vector` (lines 209-222): amount-magnitude piecewise
formulas for `i ≤ 14`, a merchant-presence value for `i ≥ 15`, with
`amount_log = np.log(max(amount, 0.01))` passed in. -/
def vVal (amount amount_log : ℚ) (merchant : Option String) (i : ℕ) : ℚ :=
  if i ≤ 14 then
    if 1000 < amount then (amount / 100) * ((-1) ^ i) * 0.5
    else if amount < 1 then amount * 10 * ((-1) ^ i)
    else amount_log * ((-1) ^ i) * 0.2
  else
    (if merchantTruthy merchant then 0.1 else 0) * ((-1) ^ i)

/-- Python `time or 10000`: `None` and `0` are falsy. -/
def timeVal (time : Option ℚ) : ℚ :=
  match time with
  | none => 10000
  | some t => if t = 0 then 10000 else t

/-- The dict built by `build_transaction_vector` before the merchant-based
overrides (lines 200-222): `Time` (with Python `time or 10000`
truthiness), `Amount`, then the loop `for i in range(1, 29)`.  `log` is
the `np.log` collaborator. -/
def buildBase (log : ℚ → ℚ) (amount : ℚ) (merchant : Option String)
    (time : Option ℚ) : List (String × ℚ) :=
  let amount_log := log (max amount 0.01)
  (List.range' 1 28).foldl
    (fun d i => dictSet d (vKey i) (vVal amount amount_log merchant i))
    [("Time", timeVal time), ("Amount", amount)]

/-- `build_transaction_vector(amount, merchant, time)` (lines 199-240):
the base dict followed by the merchant-based `V14..V28` overrides. -/
def build_transaction_vector (log : ℚ → ℚ) (amount : ℚ)
    (merchant : Option String) (time : Option ℚ) : List (String × ℚ) :=
  let transaction := buildBase log amount merchant time
  if merchantTruthy merchant then
    let merchant_lower := strLower (merchant.getD "")
    if containsSub "starbucks" merchant_lower ∧ 500 < amount then
      dictSet (dictSet transaction "V14" 2.5) "V15" 1.8
    else if containsSub "uber" merchant_lower ∧ 300 < amount then
      dictSet transaction "V16" 2.2
    else if containsSub "whole foods" merchant_lower ∧ amount < 20 then
      dictSet transaction "V17" 1.5
    else if containsSub "unknown" merchant_lower ∨ containsSub "suspicious" merchant_lower then
      (List.range' 20 8).foldl (fun d j => dictSet d (vKey j) (1 + (j : ℚ) * 0.1)) transaction
    else transaction
  else transaction

theorem any_key_eq_false {d : List (String × ℚ)} {k : String}
    (h : k ∉ d.map Prod.fst) : (d.any fun p => p.1 == k) = false := by
  rw [List.any_eq_false]
  intro p hp
  simp only [beq_iff_eq]
  rintro rfl
  exact h (List.mem_map_of_mem Prod.fst hp)

theorem dictSet_fresh {d : List (String × ℚ)} {k : String} (v : ℚ)
    (h : k ∉ d.map Prod.fst) : dictSet d k v = d ++ [(k, v)] := by
  simp [dictSet, any_key_eq_false h]

theorem dictSet_keys_of_mem {d : List (String × ℚ)} {k : String} (v : ℚ)
    (h : k ∈ d.map Prod.fst) :
    (dictSet d k v).map Prod.fst = d.map Prod.fst := by
  have hany : (d.any fun p => p.1 == k) = true := by
    rw [List.any_eq_true]
    obtain ⟨p, hp, hpk⟩ := List.mem_map.mp h
    exact ⟨p, hp, by simp [hpk]⟩
  simp only [dictSet, hany, if_true, List.map_map]
  refine List.map_congr_left fun p hp => ?_
  by_cases hk : p.1 = k
  · simp [hk]
  · simp [hk]

theorem lookup_map_replace {k k' : String} {v : ℚ} (h : k' ≠ k) :
    ∀ d : List (String × ℚ),
      List.lookup k' (d.map (fun p => if p.1 = k then (k, v) else p)) = List.lookup k' d := by
  intro d
  induction d with
  | nil => rfl
  | cons p rest ih =>
    obtain ⟨k1, v1⟩ := p
    by_cases hk : k1 = k
    · subst hk
      rw [List.map_cons, if_pos rfl]
      simp [List.lookup, show (k' == k1) = false from beq_eq_false_iff_ne.mpr h, ih]
    · rw [List.map_cons, if_neg (by simpa using hk)]
      by_cases hk' : k' = k1
      · subst hk'
        simp [List.lookup]
      · simp [List.lookup, show (k' == k1) = false from beq_eq_false_iff_ne.mpr hk', ih]

theorem lookup_append_single {k k' : String} {v : ℚ} (h : k' ≠ k) :
    ∀ d : List (String × ℚ),
      List.lookup k' (d ++ [(k, v)]) = List.lookup k' d := by
  intro d
  induction d with
  | nil => simp [List.lookup, show (k' == k) = false from beq_eq_false_iff_ne.mpr h]
  | cons p rest ih =>
    obtain ⟨k1, v1⟩ := p
    by_cases hk' : k' = k1
    · subst hk'
      simp [List.lookup]
    · simp [List.lookup, show (k' == k1) = false from beq_eq_false_iff_ne.mpr hk', ih]

theorem lookup_dictSet_ne {d : List (String × ℚ)} {k k' : String} (v : ℚ)
    (h : k' ≠ k) : List.lookup k' (dictSet d k v) = List.lookup k' d := by
  unfold dictSet
  split
  · exact lookup_map_replace h d
  · exact lookup_append_single h d

theorem foldl_dictSet_fresh {key : ℕ → String} {val : ℕ → ℚ} :
    ∀ (l : List ℕ) (d : List (String × ℚ)),
      (∀ i ∈ l, key i ∉ d.map Prod.fst) →
      l.Pairwise (fun i j => key i ≠ key j) →
      l.foldl (fun d i => dictSet d (key i) (val i)) d =
        d ++ l.map (fun i => (key i, val i)) := by
  intro l
  induction l with
  | nil => intro d _ _; simp
  | cons i rest ih =>
    intro d hfresh hpair
    have hstep : dictSet d (key i) (val i) = d ++ [(key i, val i)] :=
      dictSet_fresh (val i) (hfresh i (List.mem_cons_self i rest))
    have hpair' := List.pairwise_cons.mp hpair
    have hfresh' : ∀ j ∈ rest, key j ∉ (d ++ [(key i, val i)]).map Prod.fst := by
      intro j hj
      rw [List.map_append]
      simp only [List.mem_append, List.map_cons, List.map_nil, List.mem_singleton]
      rintro (hmem | hmem)
      · exact hfresh j (List.mem_cons_of_mem i hj) hmem
      · exact (hpair'.1 j hj) hmem.symm
    calc (i :: rest).foldl (fun d i => dictSet d (key i) (val i)) d
        = rest.foldl (fun d i => dictSet d (key i) (val i)) (d ++ [(key i, val i)]) := by
          rw [List.foldl_cons, hstep]
      _ = (d ++ [(key i, val i)]) ++ rest.map (fun i => (key i, val i)) :=
          ih _ hfresh' hpair'.2
      _ = d ++ (i :: rest).map (fun i => (key i, val i)) := by simp

theorem buildBase_eq (log : ℚ → ℚ) (amount : ℚ) (merchant : Option String)
    (time : Option ℚ) :
    buildBase log amount merchant time =
      ("Time", timeVal time) :: ("Amount", amount) ::
      (List.range' 1 28).map
        (fun i => (vKey i, vVal amount (log (max amount 0.01)) merchant i)) := by
  unfold buildBase
  rw [foldl_dictSet_fresh (List.range' 1 28)
    [("Time", timeVal time), ("Amount", amount)] ?_ ?_]
  · simp
  · intro i hi
    simp only [List.map_cons, List.map_nil]
    have : vKey i ∉ (["Time", "Amount"] : List String) := by
      revert hi
      revert i
      decide
    simpa using this
  · decide

theorem foldl_dictSet_keys {key : ℕ → String} {val : ℕ → ℚ} :
    ∀ (l : List ℕ) (d : List (String × ℚ)),
      (∀ j ∈ l, key j ∈ d.map Prod.fst) →
      (l.foldl (fun d j => dictSet d (key j) (val j)) d).map Prod.fst = d.map Prod.fst := by
  intro l
  induction l with
  | nil => intro d _; rfl
  | cons j rest ih =>
    intro d hmem
    rw [List.foldl_cons]
    have hstep := dictSet_keys_of_mem (d := d) (val j) (hmem j (List.mem_cons_self j rest))
    rw [ih (dictSet d (key j) (val j)) (fun j' hj' => by
      rw [hstep]; exact hmem j' (List.mem_cons_of_mem j hj')), hstep]

theorem foldl_dictSet_lookup_ne {key : ℕ → String} {val : ℕ → ℚ} {k' : String} :
    ∀ (l : List ℕ) (d : List (String × ℚ)),
      (∀ j ∈ l, k' ≠ key j) →
      List.lookup k' (l.foldl (fun d j => dictSet d (key j) (val j)) d) =
        List.lookup k' d := by
  intro l
  induction l with
  | nil => intro d _; rfl
  | cons j rest ih =>
    intro d hne
    rw [List.foldl_cons,
      ih (dictSet d (key j) (val j)) (fun j' hj' => hne j' (List.mem_cons_of_mem j hj')),
      lookup_dictSet_ne (val j) (hne j (List.mem_cons_self j rest))]

/-- The 30 keys `Time`, `Amount`, `V1..V28`, in insertion order. -/
def featureKeys : List String := "Time" :: "Amount" :: (List.range' 1 28).map vKey

theorem buildBase_keys (log : ℚ → ℚ) (amount : ℚ) (merchant : Option String)
    (time : Option ℚ) :
    (buildBase log amount merchant time).map Prod.fst = featureKeys := by
  rw [buildBase_eq, featureKeys]
  simp only [List.map_cons, List.map_map]
  rfl

/-- C3: for every amount ≥ 0, merchant (present or absent) and time,
`build_transaction_vector` returns a mapping whose keys are exactly
`Time`, `Amount`, `V1..V28` (30 keys, merchant overrides only rewrite
values of existing keys), with `Amount` bound to the input amount. -/
theorem build_vector_keys_amount (log : ℚ → ℚ) (amount : ℚ)
    (merchant : Option String) (time : Option ℚ) (h : 0 ≤ amount) :
    (build_transaction_vector log amount merchant time).map Prod.fst = featureKeys ∧
    featureKeys.length = 30 ∧
    List.lookup "Amount" (build_transaction_vector log amount merchant time) =
      some amount := by
  have hbk := buildBase_keys log amount merchant time
  have h14 : "V14" ∈ (buildBase log amount merchant time).map Prod.fst := by
    rw [hbk]; decide
  have h15 : "V15" ∈ (dictSet (buildBase log amount merchant time) "V14" 2.5).map Prod.fst := by
    rw [dictSet_keys_of_mem _ h14, hbk]; decide
  have h16 : "V16" ∈ (buildBase log amount merchant time).map Prod.fst := by
    rw [hbk]; decide
  have h17 : "V17" ∈ (buildBase log amount merchant time).map Prod.fst := by
    rw [hbk]; decide
  have hbl : List.lookup "Amount" (buildBase log amount merchant time) = some amount := by
    rw [buildBase_eq]
    simp [List.lookup]
  refine ⟨?_, by decide, ?_⟩
  · unfold build_transaction_vector
    dsimp only
    split_ifs
    · rw [dictSet_keys_of_mem _ h15, dictSet_keys_of_mem _ h14, hbk]
    · rw [dictSet_keys_of_mem _ h16, hbk]
    · rw [dictSet_keys_of_mem _ h17, hbk]
    · rw [foldl_dictSet_keys (List.range' 20 8) _ (fun j hj => by
        rw [hbk]; revert hj; revert j; decide), hbk]
    · exact hbk
    · exact hbk
  · unfold build_transaction_vector
    dsimp only
    split_ifs
    · rw [lookup_dictSet_ne _ (by decide), lookup_dictSet_ne _ (by decide), hbl]
    · rw [lookup_dictSet_ne _ (by decide), hbl]
    · rw [lookup_dictSet_ne _ (by decide), hbl]
    · rw [foldl_dictSet_lookup_ne (List.range' 20 8) _ (by decide), hbl]
    · exact hbl
    · exact hbl

theorem lookup_map_of_mem {key : ℕ → String} {val : ℕ → ℚ} :
    ∀ (l : List ℕ) {i : ℕ}, i ∈ l →
      (∀ a ∈ l, ∀ b ∈ l, key a = key b → a = b) →
      List.lookup (key i) (l.map (fun j => (key j, val j))) = some (val i) := by
  intro l
  induction l with
  | nil => intro i hi _; cases hi
  | cons j rest ih =>
    intro i hi hinj
    by_cases hij : i = j
    · subst hij
      simp [List.lookup]
    · have hikj : (key i == key j) = false := by
        refine beq_eq_false_iff_ne.mpr fun hk => hij ?_
        exact hinj i hi j (List.mem_cons_self j rest) hk
      have hir : i ∈ rest := by
        rcases List.mem_cons.mp hi with h' | h'
        · exact absurd h' hij
        · exact h'
      simp only [List.map_cons, List.lookup, hikj]
      exact ih hir fun a ha b hb =>
        hinj a (List.mem_cons_of_mem j ha) b (List.mem_cons_of_mem j hb)

theorem lookup_vKey_buildBase (log : ℚ → ℚ) (amount : ℚ)
    (merchant : Option String) (time : Option ℚ) {i : ℕ}
    (h : i ∈ List.range' 1 28) :
    List.lookup (vKey i) (buildBase log amount merchant time) =
      some (vVal amount (log (max amount 0.01)) merchant i) := by
  rw [buildBase_eq]
  have hTA : ∀ j ∈ List.range' 1 28,
      (vKey j == "Time") = false ∧ (vKey j == "Amount") = false := by decide
  simp only [List.lookup, (hTA i h).1, (hTA i h).2]
  exact lookup_map_of_mem (List.range' 1 28) h (by decide)

/-- C3 witness: instantiation of `build_vector_keys_amount` at amount 600,
merchant "Starbucks", default time, with log modelled as the zero
function. -/
theorem build_vector_keys_amount_witness :
    (0 : ℚ) ≤ 600 ∧
    ((build_transaction_vector (fun _ => 0) 600 (some "Starbucks") none).map Prod.fst =
        featureKeys ∧
      featureKeys.length = 30 ∧
      List.lookup "Amount" (build_transaction_vector (fun _ => 0) 600 (some "Starbucks") none) =
        some 600) :=
  ⟨by norm_num,
   build_vector_keys_amount (fun _ => 0) 600 (some "Starbucks") none (by norm_num)⟩

/-- C4 counterexample: the claim says every entry `V1..V28` is populated by
the amount-magnitude piecewise formulas.  At amount 2000 (above the
high-amount threshold) with no merchant, the high-amount scaling formula
would give `V15 = (2000/100)·(−1)^15·0.5 = −10`, but the code assigns
`V15 = 0` (the `i ≥ 15` branch depends only on merchant presence). -/
theorem buildBase_V15_not_amount_formula :
    List.lookup (vKey 15) (buildBase (fun _ => 0) 2000 none none) = some 0 ∧
    ((2000 : ℚ) / 100) * ((-1) ^ (15 : ℕ)) * 0.5 ≠ 0 := by
  constructor
  · rw [lookup_vKey_buildBase (fun _ => 0) 2000 none none (by decide)]
    norm_num [vVal, merchantTruthy]
  · norm_num

/-- C4 (amended): in the `V1..V28` loop of `build_transaction_vector`,
entries `V1..V14` use the amount-magnitude piecewise heuristic (high
amounts one scaling formula, micro amounts another, otherwise the
log-amount formula) while `V15..V28` are the merchant-presence value 0.1
(or 0.0) times the alternating sign; in every case the value's sign
follows the even/odd parity of the index weakly (even index ⇒ ≥ 0,
odd index ⇒ ≤ 0, the value being 0 in degenerate cases). -/
theorem buildBase_piecewise_signs (log : ℚ → ℚ) (amount : ℚ)
    (merchant : Option String) (time : Option ℚ) (i : ℕ) (h0 : 0 ≤ amount)
    (hlog : 1 ≤ amount → 0 ≤ log (max amount 0.01))
    (h1 : 1 ≤ i) (h2 : i ≤ 28) :
    List.lookup (vKey i) (buildBase log amount merchant time) =
      some (vVal amount (log (max amount 0.01)) merchant i) ∧
    (i ≤ 14 → 1000 < amount →
      vVal amount (log (max amount 0.01)) merchant i = (amount / 100) * ((-1) ^ i) * 0.5) ∧
    (i ≤ 14 → amount < 1 →
      vVal amount (log (max amount 0.01)) merchant i = amount * 10 * ((-1) ^ i)) ∧
    (i ≤ 14 → ¬ 1000 < amount → ¬ amount < 1 →
      vVal amount (log (max amount 0.01)) merchant i =
        log (max amount 0.01) * ((-1) ^ i) * 0.2) ∧
    (14 < i →
      vVal amount (log (max amount 0.01)) merchant i =
        (if merchantTruthy merchant then 0.1 else 0) * ((-1) ^ i)) ∧
    (i % 2 = 0 → 0 ≤ vVal amount (log (max amount 0.01)) merchant i) ∧
    (i % 2 = 1 → vVal amount (log (max amount 0.01)) merchant i ≤ 0) := by
  have hmem : i ∈ List.range' 1 28 := List.mem_range'.mpr ⟨i - 1, by omega, by omega⟩
  refine ⟨lookup_vKey_buildBase log amount merchant time hmem, ?_, ?_, ?_, ?_, ?_, ?_⟩
  · intro hi ha; simp [vVal, hi, ha]
  · intro hi ha
    have : ¬ 1000 < amount := by linarith
    simp [vVal, hi, ha, this]
  · intro hi ha hm; simp [vVal, hi, ha, hm]
  · intro hi
    have : ¬ i ≤ 14 := by omega
    simp [vVal, this]
  · intro hpar
    have hpow : ((-1 : ℚ)) ^ i = 1 := (Nat.even_iff.mpr hpar).neg_one_pow
    unfold vVal
    rw [hpow]
    split_ifs with hi ha hm ht
    · nlinarith
    · nlinarith
    · have h1a : 1 ≤ amount := by linarith
      nlinarith [hlog h1a]
    · norm_num
    · norm_num
  · intro hpar
    have hpow : ((-1 : ℚ)) ^ i = -1 := (Nat.odd_iff.mpr hpar).neg_one_pow
    unfold vVal
    rw [hpow]
    split_ifs with hi ha hm ht
    · nlinarith
    · nlinarith
    · have h1a : 1 ≤ amount := by linarith
      nlinarith [hlog h1a]
    · norm_num
    · norm_num

/-- C4 witness: instantiation of `buildBase_piecewise_signs` at the
concrete input amount 50, no merchant, default time, log modelled as the
zero function, at index 3. -/
theorem buildBase_piecewise_signs_witness :
    (0 : ℚ) ≤ 50 ∧ ((1 : ℚ) ≤ 50 → (0 : ℚ) ≤ (fun _ => (0 : ℚ)) (max 50 0.01)) ∧
    1 ≤ 3 ∧ 3 ≤ 28 ∧
    (List.lookup (vKey 3) (buildBase (fun _ => 0) 50 none none) =
        some (vVal 50 ((fun _ => (0 : ℚ)) (max 50 0.01)) none 3) ∧
      (3 ≤ 14 → 1000 < (50 : ℚ) →
        vVal 50 ((fun _ => (0 : ℚ)) (max 50 0.01)) none 3 =
          ((50 : ℚ) / 100) * ((-1) ^ (3 : ℕ)) * 0.5) ∧
      (3 ≤ 14 → (50 : ℚ) < 1 →
        vVal 50 ((fun _ => (0 : ℚ)) (max 50 0.01)) none 3 = (50 : ℚ) * 10 * ((-1) ^ (3 : ℕ))) ∧
      (3 ≤ 14 → ¬ 1000 < (50 : ℚ) → ¬ (50 : ℚ) < 1 →
        vVal 50 ((fun _ => (0 : ℚ)) (max 50 0.01)) none 3 =
          (fun _ => (0 : ℚ)) (max 50 0.01) * ((-1) ^ (3 : ℕ)) * 0.2) ∧
      (14 < 3 →
        vVal 50 ((fun _ => (0 : ℚ)) (max 50 0.01)) none 3 =
          (if merchantTruthy none then 0.1 else 0) * ((-1) ^ (3 : ℕ))) ∧
      (3 % 2 = 0 → 0 ≤ vVal 50 ((fun _ => (0 : ℚ)) (max 50 0.01)) none 3) ∧
      (3 % 2 = 1 → vVal 50 ((fun _ => (0 : ℚ)) (max 50 0.01)) none 3 ≤ 0)) :=
  ⟨by norm_num, fun _ => le_refl 0, by norm_num, by norm_num,
   buildBase_piecewise_signs (fun _ => 0) 50 none none 3 (by norm_num)
     (fun _ => le_refl 0) (by norm_num) (by norm_num)⟩

/-! ### Model registry (`ml_models.py`) -/

/-- One trained bundle `(model, scaler, feature_order, metrics)` as stored
in `_models` and in a persisted model file.  The scikit-learn objects are
opaque collaborators: `predict_proba` models `model.predict_proba(X)[0, 1]`
when the classifier has a `predict_proba` attribute, `predictFn` models
the `float(model.predict(X)[0])` fallback, and `transform` models
`scaler.transform` on a single row. -/
structure Bundle where
  predict_proba : Option (List ℚ → ℚ)
  predictFn : List ℚ → ℚ
  transform : List ℚ → List ℚ
  feature_order : List String
  metrics : List (String × ℚ)

/-- Process-wide state of `ml_models.py` together with its external
collaborators: `models` and `active` are the module globals `_models` and
`_active_algorithm`; `disk` is the persisted model files keyed by
algorithm name (`get_model_path`); `trainFresh` is the outcome of the
dataset-loading, splitting, fitting and evaluation pipeline for an
algorithm (`none` models an exception anywhere in it). -/
structure World where
  models : String → Option Bundle
  active : String
  disk : String → Option Bundle
  trainFresh : String → Option Bundle

/-- `save_model(algorithm, model, scaler, feature_order, metrics)`
(lines 186-203): serialize the bundle to the algorithm's model file. -/
def save_model (disk : String → Option Bundle) (algorithm : String)
    (b : Bundle) : String → Option Bundle :=
  fun a => if a = algorithm then some b else disk a

/-- `load_model(algorithm)` (lines 206-229): read the bundle back from the
algorithm's model file; `none` when no file exists or unpickling fails. -/
def load_model (disk : String → Option Bundle) (algorithm : String) :
    Option Bundle :=
  disk algorithm

/-- `train_algorithm(algorithm, force_retrain)` (lines 232-288): with
`force_retrain=False` an existing persisted bundle is loaded into
`_models` instead of retraining; otherwise the training pipeline runs,
stores the new bundle in `_models` and persists it; any exception
(including the `ValueError` for an unknown algorithm) is caught and
yields `False`. -/
def train_algorithm (w : World) (algorithm : String) (force_retrain : Bool) :
    Bool × World :=
  match if force_retrain then none else load_model w.disk algorithm with
  | some b =>
      (true, { w with models := fun a => if a = algorithm then some b else w.models a })
  | none =>
      if algorithm = "ann" ∨ algorithm = "svm" ∨ algorithm = "knn" then
        match w.trainFresh algorithm with
        | some b =>
            (true, { w with
              models := fun a => if a = algorithm then some b else w.models a,
              disk := save_model w.disk algorithm b })
        | none => (false, w)
      else (false, w)

/-- `set_active_algorithm(algorithm)` (lines 291-307): unknown identifiers
are rejected before any state change; otherwise the model is trained or
loaded on demand, and only on success is the active pointer updated. -/
def set_active_algorithm (w : World) (algorithm : String) : Bool × World :=
  if algorithm = "ann" ∨ algorithm = "svm" ∨ algorithm = "knn" then
    if (w.models algorithm).isSome then
      (true, { w with active := algorithm })
    else
      match train_algorithm w algorithm false with
      | (true, w') => (true, { w' with active := algorithm })
      | (false, w') => (false, w')
  else (false, w)

/-- Python `algorithm or _active_algorithm`: `None` and the empty string
fall back to the active algorithm. -/
def orActive (w : World) (algorithm : Option String) : String :=
  match algorithm with
  | none => w.active
  | some s => if s = "" then w.active else s

/-- `is_ready(algorithm)` (lines 310-313). -/
def is_ready (w : World) (algorithm : Option String) : Bool :=
  (w.models (orActive w algorithm)).isSome

/-- The dict returned by `predict_fraud`. -/
structure PredictResult where
  score : ℚ
  algorithm : String
  confidence : ℚ
deriving DecidableEq

/-- `predict_fraud(payload, algorithm)` (lines 316-351): raises
`RuntimeError(f"Model {algo} not loaded")` when no bundle is present
(modelled as `Except.error`); otherwise reorders the payload into the
bundle's stored feature order with `payload.get(f, 0.0)`, applies the
scaler transform and the classifier probability (or the label fallback),
and returns score, algorithm and confidence. -/
def predict_fraud (w : World) (payload : List (String × ℚ))
    (algorithm : Option String) : Except String PredictResult :=
  let algo := orActive w algorithm
  match w.models algo with
  | none => .error ("Model " ++ algo ++ " not loaded")
  | some b =>
      let row := b.feature_order.map (fun f => (List.lookup f payload).getD 0)
      let X_scaled := b.transform row
      let proba :=
        match b.predict_proba with
        | some pp => pp X_scaled
        | none => b.predictFn X_scaled
      .ok { score := proba, algorithm := algo,
            confidence := if 0.5 < proba then proba else 1 - proba }

/-- `get_metrics(algorithm)` (lines 354-360): the stored metrics, or a
structured "not loaded" error. -/
def get_metrics (w : World) (algorithm : Option String) :
    Except String (List (String × ℚ)) :=
  let algo := orActive w algorithm
  match w.models algo with
  | none => .error ("Model " ++ algo ++ " not loaded")
  | some b => .ok b.metrics

/-- An empty registry world: no bundles in memory, no persisted files,
training always fails, default active algorithm `"ann"`. -/
def emptyWorld : World :=
  { models := fun _ => none, active := "ann",
    disk := fun _ => none, trainFresh := fun _ => none }

/-- A concrete demonstration bundle used to instantiate theorems. -/
def demoBundle : Bundle :=
  { predict_proba := some (fun r => r.headD 0), predictFn := fun _ => 0,
    transform := fun r => r, feature_order := ["Amount"], metrics := [] }

/-- A world whose `ann` entry is `demoBundle`. -/
def demoWorld : World :=
  { models := fun a => if a = "ann" then some demoBundle else none,
    active := "ann", disk := fun _ => none, trainFresh := fun _ => none }

/-- C5: `predict_fraud` on any algorithm whose bundle is not present
(`is_ready` false) fails with the distinguishable
`"Model <algo> not loaded"` error value; no prediction is computed. -/
theorem predict_fraud_not_loaded (w : World) (payload : List (String × ℚ))
    (algorithm : Option String) (h : is_ready w algorithm = false) :
    predict_fraud w payload algorithm =
      .error ("Model " ++ orActive w algorithm ++ " not loaded") := by
  unfold is_ready at h
  unfold predict_fraud
  cases hm : w.models (orActive w algorithm) with
  | none => simp [hm]
  | some b => rw [hm] at h; simp at h

/-- C5 witness: instantiation of `predict_fraud_not_loaded` on the empty
world with the explicit algorithm `"svm"`. -/
theorem predict_fraud_not_loaded_witness :
    is_ready emptyWorld (some "svm") = false ∧
    predict_fraud emptyWorld [] (some "svm") =
      .error ("Model " ++ orActive emptyWorld (some "svm") ++ " not loaded") :=
  ⟨by rfl, predict_fraud_not_loaded emptyWorld [] (some "svm") (by rfl)⟩

/-- C6: when a bundle is present and its classifier has a probability
function, `predict_fraud` builds the classifier input by reordering the
payload into the bundle's stored feature order with 0.0 silently
substituted for missing keys, and returns confidence equal to the
predicted probability when it exceeds 0.5 and one minus it otherwise. -/
theorem predict_fraud_reorders (w : World) (payload : List (String × ℚ))
    (algorithm : Option String) (b : Bundle) (pp : List ℚ → ℚ)
    (hb : w.models (orActive w algorithm) = some b)
    (hpp : b.predict_proba = some pp) :
    predict_fraud w payload algorithm =
      .ok { score := pp (b.transform
              (b.feature_order.map (fun f => (List.lookup f payload).getD 0))),
            algorithm := orActive w algorithm,
            confidence :=
              if 0.5 < pp (b.transform
                  (b.feature_order.map (fun f => (List.lookup f payload).getD 0)))
              then pp (b.transform
                  (b.feature_order.map (fun f => (List.lookup f payload).getD 0)))
              else 1 - pp (b.transform
                  (b.feature_order.map (fun f => (List.lookup f payload).getD 0))) } := by
  unfold predict_fraud
  dsimp only
  rw [hb]
  dsimp only
  rw [hpp]

/-- C6 witness: instantiation of `predict_fraud_reorders` on `demoWorld`
with payload `[("Amount", 3)]`. -/
theorem predict_fraud_reorders_witness :
    demoWorld.models (orActive demoWorld none) = some demoBundle ∧
    demoBundle.predict_proba = some (fun r => r.headD 0) ∧
    predict_fraud demoWorld [("Amount", 3)] none =
      .ok { score := (fun r : List ℚ => r.headD 0) (demoBundle.transform
              (demoBundle.feature_order.map
                (fun f => (List.lookup f [("Amount", (3 : ℚ))]).getD 0))),
            algorithm := orActive demoWorld none,
            confidence :=
              if 0.5 < (fun r : List ℚ => r.headD 0) (demoBundle.transform
                  (demoBundle.feature_order.map
                    (fun f => (List.lookup f [("Amount", (3 : ℚ))]).getD 0)))
              then (fun r : List ℚ => r.headD 0) (demoBundle.transform
                  (demoBundle.feature_order.map
                    (fun f => (List.lookup f [("Amount", (3 : ℚ))]).getD 0)))
              else 1 - (fun r : List ℚ => r.headD 0) (demoBundle.transform
                  (demoBundle.feature_order.map
                    (fun f => (List.lookup f [("Amount", (3 : ℚ))]).getD 0))) } :=
  ⟨by rfl, by rfl,
   predict_fraud_reorders demoWorld [("Amount", 3)] none demoBundle
     (fun r => r.headD 0) (by rfl) (by rfl)⟩

/-- C7: `set_active_algorithm` on any string outside `{ann, svm, knn}`
returns failure and leaves the whole registry state — in particular the
active pointer and the bundle mapping — unchanged. -/
theorem set_active_unknown (w : World) (algorithm : String)
    (h : algorithm ≠ "ann" ∧ algorithm ≠ "svm" ∧ algorithm ≠ "knn") :
    set_active_algorithm w algorithm = (false, w) := by
  unfold set_active_algorithm
  rw [if_neg]
  rintro (h1 | h2 | h3)
  · exact h.1 h1
  · exact h.2.1 h2
  · exact h.2.2 h3

/-- C7 witness: instantiation of `set_active_unknown` at the unknown
identifier `"rf"`. -/
theorem set_active_unknown_witness :
    ("rf" ≠ "ann" ∧ "rf" ≠ "svm" ∧ "rf" ≠ "knn") ∧
    set_active_algorithm demoWorld "rf" = (false, demoWorld) :=
  ⟨by decide, set_active_unknown demoWorld "rf" (by decide)⟩

/-- C9: a bundle persisted by `save_model` and then brought back through
the load path of `train_algorithm` with `force_retrain=False` yields
prediction output identical to a registry holding the saved in-memory
bundle, for every payload. -/
theorem train_save_load_roundtrip (w : World) (algorithm : String)
    (b : Bundle) (payload : List (String × ℚ)) (halgo : algorithm ≠ "") :
    (train_algorithm { w with disk := save_model w.disk algorithm b }
        algorithm false).1 = true ∧
    predict_fraud
        (train_algorithm { w with disk := save_model w.disk algorithm b }
          algorithm false).2
        payload (some algorithm) =
      predict_fraud
        { w with models := fun a => if a = algorithm then some b else w.models a }
        payload (some algorithm) := by
  have htrain : train_algorithm { w with disk := save_model w.disk algorithm b }
      algorithm false =
      (true, { w with
        disk := save_model w.disk algorithm b,
        models := fun a => if a = algorithm then some b else w.models a }) := by
    unfold train_algorithm load_model save_model
    simp
  rw [htrain]
  refine ⟨rfl, ?_⟩
  unfold predict_fraud orActive
  simp [halgo]

/-- C9 witness: instantiation of `train_save_load_roundtrip` on the empty
world at algorithm `"ann"` with `demoBundle` and payload
`[("Amount", 3)]`. -/
theorem train_save_load_roundtrip_witness :
    ("ann" : String) ≠ "" ∧
    ((train_algorithm { emptyWorld with disk := save_model emptyWorld.disk "ann" demoBundle }
        "ann" false).1 = true ∧
     predict_fraud
        (train_algorithm { emptyWorld with disk := save_model emptyWorld.disk "ann" demoBundle }
          "ann" false).2
        [("Amount", 3)] (some "ann") =
      predict_fraud
        { emptyWorld with
            models := fun a => if a = "ann" then some demoBundle else emptyWorld.models a }
        [("Amount", 3)] (some "ann")) :=
  ⟨by decide,
   train_save_load_roundtrip emptyWorld "ann" demoBundle [("Amount", 3)] (by decide)⟩

/-- C10: whenever `predict_fraud` succeeds and the predicted probability
(the returned score) lies in [0,1], the returned confidence lies in
[0.5, 1]. -/
theorem predict_fraud_confidence_range (w : World)
    (payload : List (String × ℚ)) (algorithm : Option String)
    (r : PredictResult)
    (hok : predict_fraud w payload algorithm = .ok r)
    (h0 : 0 ≤ r.score) (h1 : r.score ≤ 1) :
    0.5 ≤ r.confidence ∧ r.confidence ≤ 1 := by
  unfold predict_fraud at hok
  dsimp only at hok
  cases hm : w.models (orActive w algorithm) with
  | none => rw [hm] at hok; simp at hok
  | some b =>
    rw [hm] at hok
    dsimp only at hok
    injection hok with hok'
    subst hok'
    simp only at h0 h1 ⊢
    split_ifs with hgt
    · exact ⟨le_of_lt hgt, h1⟩
    · push_neg at hgt
      constructor <;> linarith

/-- C10 witness: instantiation of `predict_fraud_confidence_range` on
`demoWorld`, whose demo classifier returns probability 0 on the empty
payload. -/
theorem predict_fraud_confidence_range_witness :
    predict_fraud demoWorld [] none =
      .ok { score := 0, algorithm := "ann", confidence := 1 } ∧
    (0 : ℚ) ≤ (PredictResult.mk 0 "ann" 1).score ∧
    (PredictResult.mk 0 "ann" 1).score ≤ 1 ∧
    (0.5 ≤ (PredictResult.mk 0 "ann" 1).confidence ∧
      (PredictResult.mk 0 "ann" 1).confidence ≤ 1) :=
  ⟨by norm_num [predict_fraud, demoWorld, demoBundle, orActive, List.lookup], by norm_num, by norm_num,
   predict_fraud_confidence_range demoWorld [] none (PredictResult.mk 0 "ann" 1)
     (by norm_num [predict_fraud, demoWorld, demoBundle, orActive, List.lookup])
     (by norm_num) (by norm_num)⟩

/-! ### Chatbot fraud-inquiry decision mapping (`chatbot_nlp.py`) -/

/-- The decision thresholds applied to the raw model score inside
`call_ml_api("/score")` (chatbot_nlp.py lines 278-287). -/
def scoreEndpointDecision (score : ℚ) : String :=
  if score < 0.01 then "allow"
  else if score < 0.05 then "challenge"
  else "block"

/-- The model-backed path of `_handle_fraud_inquiry` (lines 660-676):
enhance the ML score with the business rules, then recompute the decision
from the enhanced score. -/
def fraudInquiryOutcome (amount : ℚ) (merchant : Option String)
    (ml_score : ℚ) : ℚ × String :=
  let enhanced_score := applyRules amount merchant ml_score
  (enhanced_score,
    if enhanced_score < 0.01 then "allow"
    else if enhanced_score < 0.05 then "challenge"
    else "block")

/-- The business-rules-only fallback path `_handle_fraud_inquiry_fallback`
(lines 681-701): base score 0.01, business rules, then the decision. -/
def fraudInquiryFallbackOutcome (amount : ℚ) (merchant : Option String) :
    ℚ × String :=
  let enhanced_score := applyRules amount merchant 0.01
  (enhanced_score,
    if enhanced_score < 0.01 then "allow"
    else if enhanced_score < 0.05 then "challenge"
    else "block")

/-- C8: both the model-backed fraud-inquiry path and the business-rules
fallback path map the final (rule-enhanced) score to a decision with the
same thresholds — below 0.01 "allow", below 0.05 "challenge", otherwise
"block" — the same mapping the `/score` endpoint applies to a raw
score. -/
theorem fraud_decision_thresholds (amount : ℚ) (merchant : Option String)
    (ml_score : ℚ) :
    (fraudInquiryOutcome amount merchant ml_score).1 =
      applyRules amount merchant ml_score ∧
    (fraudInquiryOutcome amount merchant ml_score).2 =
      scoreEndpointDecision (fraudInquiryOutcome amount merchant ml_score).1 ∧
    (fraudInquiryFallbackOutcome amount merchant).1 =
      applyRules amount merchant 0.01 ∧
    (fraudInquiryFallbackOutcome amount merchant).2 =
      scoreEndpointDecision (fraudInquiryFallbackOutcome amount merchant).1 ∧
    (∀ s : ℚ, scoreEndpointDecision s =
      if s < 0.01 then "allow" else if s < 0.05 then "challenge" else "block") :=
  ⟨rfl, rfl, rfl, rfl, fun _ => rfl⟩

end FraudDetect
